import Mathlib

/-!
# Verification of the branching-story backend core

Shallow embedding, in Lean 4, of the core pure logic of the
"Your Story Generator AI" backend:

* `Backend/core/story_generator.py` — the AI-response parser
  (`StoryGenerator._parse_response`), the continuity-context tracker
  (`StoryGenerator.extract_context_updates`), and the model-fallback loop of
  `StoryGenerator.generate` / `StoryGenerator._model_fallbacks`;
* `Backend/routers/story.py` — node creation (`create_story_node`), branch
  computation (`get_story_branches`'s `collect_branches`), the story-pointer
  updates performed by the generation endpoints, and list pagination;
* `Backend/routers/jobs.py` — job list pagination.

Strings are modelled as `List Char`; the Python regular expressions used by
the source are embedded as explicit character scanners with the same
leftmost-match / greedy-with-backtracking semantics, restricted to ASCII
character classes (`\s` = space, tab, LF, CR, VT, FF; `[A-Z]`, `[a-z]`,
`\d` = the ASCII ranges).  Database rows are modelled as records in plain
lists, with SQLAlchemy queries embedded as list filters/finds.
-/

/-! ## Character classes (ASCII model of the Python classes) -/

/-- ASCII uppercase letter, the `[A-Z]` regex class. -/
def isUpperAZ (c : Char) : Bool := 'A' ≤ c && c ≤ 'Z'

/-- ASCII lowercase letter, the `[a-z]` regex class. -/
def isLowerAZ (c : Char) : Bool := 'a' ≤ c && c ≤ 'z'

/-- ASCII digit, the `\d` regex class. -/
def isDigitCh (c : Char) : Bool := '0' ≤ c && c ≤ '9'

/-- Whitespace, the `\s` regex class and the `str.strip` default set
(ASCII part). -/
def isSpaceCh (c : Char) : Bool :=
  c = ' ' || c = '\t' || c = '\n' || c = '\x0d' || c = '\x0b' || c = '\x0c'

/-- Sentence-terminator characters, the `[.!?]` regex class. -/
def isTermCh (c : Char) : Bool := c = '.' || c = '!' || c = '?'

/-- ASCII lowering, the effect of Python `str.lower` on ASCII text. -/
def lowerCh (c : Char) : Char :=
  if isUpperAZ c then Char.ofNat (c.toNat + 32) else c

/-! ## Substring search and stripping -/

/-- Index of the first occurrence of `pat` in `hay`
(`None`-free model of `re.search` for a literal pattern). -/
def findSub (hay pat : List Char) : Option Nat :=
  match hay with
  | [] => if pat = [] then some 0 else none
  | _ :: t => if pat.isPrefixOf hay then some 0 else (findSub t pat).map (· + 1)

/-- Whether `pat` occurs somewhere in `hay`. -/
def containsSub (hay pat : List Char) : Bool := (findSub hay pat).isSome

/-- Python `str.strip()` (ASCII whitespace model): drop leading and trailing
whitespace. -/
def stripPy (l : List Char) : List Char :=
  ((l.dropWhile isSpaceCh).reverse.dropWhile isSpaceCh).reverse

/-! ## The response parser, `StoryGenerator._parse_response`
(`Backend/core/story_generator.py`, lines 540–573) -/

/-- The group of `re.search(r'\[TAG\](.*?)\[/TAG\]', hay, re.DOTALL)` for
literal `openT = "[TAG]"`, `closeT = "[/TAG]"`: text between the first opening
tag and the first closing tag after it.  (For literal alternatives the
leftmost regex match starts at the first opening-tag occurrence that has a
closing tag after it; if the first opening tag has no closing tag after it,
no later one can either, so searching from the first occurrence is exact.) -/
def extractBetween (hay openT closeT : List Char) : Option (List Char) :=
  match findSub hay openT with
  | none => none
  | some i =>
    let rest := hay.drop (i + openT.length)
    match findSub rest closeT with
    | none => none
    | some j => some (rest.take j)

/-- Case-insensitive variant (the `re.IGNORECASE` search for the `[ENDING]`
pair); tags are located on the lowered text, the group is cut from the
original. -/
def extractBetweenCI (hay openT closeT : List Char) : Option (List Char) :=
  match findSub (hay.map lowerCh) (openT.map lowerCh) with
  | none => none
  | some i =>
    let rest := hay.drop (i + openT.length)
    match findSub (rest.map lowerCh) (closeT.map lowerCh) with
    | none => none
    | some j => some (rest.take j)

/-- The six literal delimiter tokens removed by the two clean-up
`re.sub` calls. -/
def openTagTokens : List (List Char) :=
  [['[','S','T','O','R','Y',']'], ['[','C','H','O','I','C','E','S',']'],
   ['[','E','N','D','I','N','G',']']]

/-- Closing-tag tokens of the second clean-up `re.sub`. -/
def closeTagTokens : List (List Char) :=
  [['[','/','S','T','O','R','Y',']'], ['[','/','C','H','O','I','C','E','S',']'],
   ['[','/','E','N','D','I','N','G',']']]

/-- One left-to-right pass of `re.sub(tagAlternation, '', l)`: at each
position, if one of the literal `tags` starts here, delete it and continue
after it; otherwise keep the character.  `fuel` bounds the scan
(`l.length` always suffices since every step consumes at least one
character). -/
def subTagsAux (tags : List (List Char)) : Nat → List Char → List Char
  | 0, l => l
  | _ + 1, [] => []
  | fuel + 1, c :: rest =>
    match tags.find? (fun t => t.isPrefixOf (c :: rest)) with
    | some t => subTagsAux tags fuel ((c :: rest).drop t.length)
    | none => c :: subTagsAux tags fuel rest

/-- `re.sub(r'\[(STORY|CHOICES|ENDING)\]', '', ·)` followed by
`re.sub(r'\[/(STORY|CHOICES|ENDING)\]', '', ·)`. -/
def stripTagTokens (l : List Char) : List Char :=
  subTagsAux closeTagTokens (subTagsAux openTagTokens l.length l).length
    (subTagsAux openTagTokens l.length l)

/-- Whether `(.+)` (dot not matching a newline) can start on `l`:
a first character exists and is not `'\n'`. -/
def canDotPlus (l : List Char) : Bool :=
  match l with
  | [] => false
  | c :: _ => c ≠ '\n'

/-- Backtracking of the greedy `\s*` in `\d+\.\s*(.+)`: largest `q` at most
the whitespace-run length such that `(.+)` can start after consuming `q`
whitespace characters of `r2`. -/
def findQ (r2 : List Char) : Nat → Option Nat
  | 0 => if canDotPlus (r2.drop 0) then some 0 else none
  | q + 1 =>
    if canDotPlus (r2.drop (q + 1)) then some (q + 1) else findQ r2 q

/-- `re.findall(r'\d+\.\s*(.+)', l)`: scan left to right; a match starts at a
digit whose maximal digit run is followed by a literal `'.'`, then greedy
`\s*` backtracks just enough for `(.+)` to match up to the end of the line;
scanning resumes after each match.  Returns the captured groups. -/
def choiceLinesAux : Nat → List Char → List (List Char)
  | 0, _ => []
  | _ + 1, [] => []
  | fuel + 1, c :: rest =>
    if isDigitCh c then
      let ds := rest.takeWhile isDigitCh
      match rest.drop ds.length with
      | '.' :: r2 =>
        let ws := r2.takeWhile isSpaceCh
        match findQ r2 ws.length with
        | some q =>
          let grp := (r2.drop q).takeWhile (fun x => x ≠ '\n')
          grp :: choiceLinesAux fuel (r2.drop (q + grp.length))
        | none => choiceLinesAux fuel rest
      | _ => choiceLinesAux fuel rest
    else choiceLinesAux fuel rest

/-- The captured groups of `re.findall(r'\d+\.\s*(.+)', l)`. -/
def choiceLines (l : List Char) : List (List Char) :=
  choiceLinesAux l.length l

/-- One parsed choice.  The source also attaches a freshly generated opaque
identifier (`str(uuid4())[:8]`), which is random and carries no information;
it is not modelled.  `consequence_hint` is always `None` at parse time. -/
structure ParsedChoice where
  text : List Char
  consequenceHint : Option (List Char)
deriving Repr, DecidableEq

/-- The structured parse result `{content, choices, is_ending}`. -/
structure ParsedResponse where
  content : List Char
  choices : List ParsedChoice
  isEnding : Bool
deriving Repr, DecidableEq

/-- `StoryGenerator._parse_response(content, is_ending)`
(`Backend/core/story_generator.py`, lines 540–573):
extract the `[STORY]` block (whole text if absent), strip it and remove stray
delimiter tokens; unless the job is an ending, extract the `[CHOICES]` block
and take at most 4 numbered lines as choices; extract the `[ENDING]` flag
case-insensitively; the result is an ending if the job was, the flag is
`true`, or no choices were parsed. -/
def parseResponse (content : List Char) (isEnding : Bool) : ParsedResponse :=
  let storyContent :=
    match extractBetween content "[STORY]".data "[/STORY]".data with
    | some g => stripTagTokens (stripPy g)
    | none => stripTagTokens (stripPy content)
  let choices : List ParsedChoice :=
    if isEnding then []
    else
      match extractBetween content "[CHOICES]".data "[/CHOICES]".data with
      | some block =>
        ((choiceLines (stripPy block)).take 4).map
          (fun t => { text := stripPy t, consequenceHint := none })
      | none => []
  let detectedEnding :=
    match extractBetweenCI content "[ENDING]".data "[/ENDING]".data with
    | some v => (stripPy v).map lowerCh = ['t','r','u','e']
    | none => false
  { content := storyContent
    choices := choices
    isEnding := isEnding || detectedEnding || choices.length = 0 }


/-! ## The continuity-context tracker,
`StoryGenerator.extract_context_updates`
(`Backend/core/story_generator.py`, lines 182–231) -/

/-- The story continuity context (the `story_context` dict of a Story, with
its four keys). -/
structure StoryContext where
  characters : List (List Char)
  keyEvents : List (List Char)
  currentSituation : List Char
  storySummary : List Char
deriving Repr, DecidableEq

/-- The empty default context built when no existing context is passed. -/
def emptyContext : StoryContext :=
  { characters := [], keyEvents := [], currentSituation := [], storySummary := [] }

/-- Python `l[-n:]`: the last `n` elements (the whole list when shorter). -/
def takeLast (n : Nat) (l : List (List Char)) : List (List Char) :=
  l.drop (l.length - n)

/-- The word-scanner for
`re.findall(r'(?<=[.!?]\s)[A-Z][a-z]+|(?<=\s)[A-Z][a-z]+', content)`:
a match is an uppercase letter followed by a nonempty maximal lowercase run,
at a position whose preceding character satisfies one of the two lookbehinds
(terminator-then-whitespace, or whitespace).  `p2`/`p1` carry the two
characters preceding the scan position; matches are non-overlapping and
scanning resumes after each match. -/
def capMatchCond (p2 p1 : Option Char) (c : Char) : Bool :=
  (match p2, p1 with
   | some a, some b => (isTermCh a && isSpaceCh b) || isSpaceCh b
   | none, some b => isSpaceCh b
   | _, _ => false) && isUpperAZ c

/-- Left-to-right scan emitting the capitalized-word matches. -/
def capWordsAux (p2 p1 : Option Char) : Nat → List Char → List (List Char)
  | 0, _ => []
  | _ + 1, [] => []
  | fuel + 1, c :: rest =>
    let run := rest.takeWhile isLowerAZ
    if capMatchCond p2 p1 c && !run.isEmpty then
      (c :: run) :: capWordsAux ((c :: run).getLast? >>= fun _ =>
          (c :: run).drop ((c :: run).length - 2) |>.head?)
        ((c :: run).getLast?) fuel (rest.drop run.length)
    else
      capWordsAux p1 (some c) fuel rest

/-- `re.findall(r'(?<=[.!?]\s)[A-Z][a-z]+|(?<=\s)[A-Z][a-z]+', content)`. -/
def capWords (content : List Char) : List (List Char) :=
  capWordsAux none none content.length content

/-- The fixed stop-list of common capitalized words
(`['The', 'And', 'But', 'She', 'He', 'They', 'This', 'That', 'With']`). -/
def stopWords : List (List Char) :=
  ["The", "And", "But", "She", "He", "They", "This", "That", "With"].map String.data

/-- One step of the `name_counts` dict update:
`name_counts[word] = name_counts.get(word, 0) + 1`, insertion order kept. -/
def bumpCount (m : List (List Char × Nat)) (w : List Char) : List (List Char × Nat) :=
  if m.any (fun p => p.1 = w) then
    m.map (fun p => if p.1 = w then (p.1, p.2 + 1) else p)
  else m ++ [(w, 1)]

/-- The `name_counts` loop: count each word of length `> 2` outside the
stop-list, in first-occurrence order. -/
def countNames : List (List Char) → List (List Char × Nat) → List (List Char × Nat)
  | [], m => m
  | w :: ws, m =>
    countNames ws (if w.length > 2 && !(stopWords.contains w) then bumpCount m w else m)

/-- `re.split(r'[.!?]+', content)`: split on maximal terminator runs
(`cur` is the reversed accumulator of the current piece). -/
def splitTermsAux (cur : List Char) : Nat → List Char → List (List Char)
  | 0, l => [cur.reverse ++ l]
  | _ + 1, [] => [cur.reverse]
  | fuel + 1, c :: rest =>
    if isTermCh c then
      cur.reverse :: splitTermsAux [] fuel (rest.dropWhile isTermCh)
    else
      splitTermsAux (c :: cur) fuel rest

/-- `re.split(r'[.!?]+', content)`. -/
def splitTerms (content : List Char) : List (List Char) :=
  splitTermsAux [] content.length content

/-- The list of action-verb cue words of the key-event regex. -/
def actionVerbs : List (List Char) :=
  ["discovered", "found", "entered", "escaped", "defeated", "met", "learned",
   "saw", "heard", "decided"].map String.data

/-- The first match of
`re.findall(r'[A-Z][^.!?]*(?:discovered|…|decided)[^.!?]*[.!?]', content)`:
the leftmost uppercase letter such that some cue verb occurs before the next
sentence terminator; the match spans from that letter through that
terminator. -/
def findEventAux : Nat → List Char → Option (List Char)
  | 0, _ => none
  | _ + 1, [] => none
  | fuel + 1, c :: rest =>
    if isUpperAZ c then
      let body := rest.takeWhile (fun x => !isTermCh x)
      match rest.drop body.length with
      | t :: _ =>
        if actionVerbs.any (fun v => containsSub body v) then
          some (c :: body ++ [t])
        else findEventAux fuel rest
      | [] => findEventAux fuel rest
    else findEventAux fuel rest

/-- First key-event match of the content, if any. -/
def findEvent (content : List Char) : Option (List Char) :=
  findEventAux content.length content

/-- `StoryGenerator.extract_context_updates(content, existing_context)`
(`Backend/core/story_generator.py`, lines 182–231): detect capitalized-word
character names (length `> 2`, outside the stop-list), append the ones not
already tracked and keep the last 8; replace `current_situation` with the
last up-to-two nonempty sentences; append the first action-verb clause
(truncated to 100 characters) to `key_events` and keep the last 5. -/
def extractContextUpdates (content : List Char) (existing : Option StoryContext) :
    StoryContext :=
  let ctx := existing.getD emptyContext
  let counts := countNames (capWords content) []
  let newCharacters := (counts.filter (fun p => p.2 ≥ 1)).map (fun p => p.1)
  let appended := newCharacters.filter (fun w => !(ctx.characters.contains w))
  let characters := takeLast 8 (ctx.characters ++ appended)
  let sentences := splitTerms content
  let lastSentences := (sentences.drop (sentences.length - 2)).map stripPy
    |>.filter (fun s => !s.isEmpty)
  let situation :=
    if sentences.isEmpty then ctx.currentSituation
    else List.intercalate ['.', ' '] lastSentences
  let keyEvents :=
    match findEvent content with
    | some ev => takeLast 5 (ctx.keyEvents ++ [ev.take 100])
    | none => takeLast 5 ctx.keyEvents
  { characters := characters
    keyEvents := keyEvents
    currentSituation := situation
    storySummary := ctx.storySummary }


/-! ## Data model records (`Backend/models/story.py`, `Backend/models/job.py`) -/

/-- A `story_nodes` row, restricted to the fields the verified logic reads.
`node_metadata` (an opaque audio attachment) and timestamps are not read by
any verified operation and are omitted. -/
structure StoryNodeRec where
  id : Nat
  storyId : Nat
  parentId : Option Nat
  content : List Char
  choiceText : Option (List Char)
  choices : List ParsedChoice
  isRoot : Bool
  isEnding : Bool
  depth : Nat
deriving Repr, DecidableEq

/-- The HTTP error kinds raised by the verified endpoints
(404 Not Found, 400 Bad Request, 409 Conflict). -/
inductive ApiError where
  | notFound
  | badRequest
  | conflict
deriving Repr, DecidableEq

/-! ## Node authoring, `create_story_node`
(`Backend/routers/story.py`, lines 472–522) -/

/-- `create_story_node(story_id, node_data, db)`: 404 if the story does not
exist; look up the story's root (`is_root == True`); the new node is root iff
no root exists and `parent_id` is null; when `parent_id` is given (Python
truthiness: a non-null, non-zero id), the parent must exist and belong to the
story (else 400), and depth is `parent.depth + 1`.  Returns the persisted
node and the new node table. -/
def createStoryNode (stories : List Nat) (nodes : List StoryNodeRec)
    (storyId : Nat) (parentId : Option Nat) (content : List Char)
    (choiceText : Option (List Char)) (isEnding : Bool) (newId : Nat) :
    Except ApiError (StoryNodeRec × List StoryNodeRec) :=
  if !stories.contains storyId then
    throw ApiError.notFound
  else
    let existingRoot := nodes.find? (fun n => n.storyId = storyId && n.isRoot)
    let isRoot := existingRoot.isNone && parentId.isNone
    let mkNode : Nat → StoryNodeRec := fun depth =>
      { id := newId, storyId := storyId, parentId := parentId, content := content
        choiceText := choiceText, choices := [], isRoot := isRoot
        isEnding := isEnding, depth := depth }
    if parentId.getD 0 ≠ 0 then
      match nodes.find? (fun n => some n.id = parentId) with
      | some parent =>
        if parent.storyId ≠ storyId then throw ApiError.badRequest
        else .ok (mkNode (parent.depth + 1), nodes ++ [mkNode (parent.depth + 1)])
      | none => throw ApiError.badRequest
    else
      .ok (mkNode 0, nodes ++ [mkNode 0])

/-! ## Story-pointer updates of the generation endpoints
(`Backend/routers/story.py`: `generate_story_opening` lines 728–771,
`continue_story` lines 837–877, `generate_story_ending` lines 936–975,
`stream_story_generation` lines 1036–1075) -/

/-- The Story columns mutated by a successful generation. -/
structure StoryPtrs where
  rootNodeId : Option Nat
  currentNodeId : Option Nat
  isCompleted : Bool
  storyContext : Option StoryContext
deriving Repr, DecidableEq

/-- The three generation job types. -/
inductive GenJobType where
  | opening
  | continuation
  | ending
deriving Repr, DecidableEq

/-- `generate_story_opening` success path: persist the root node
(`is_root=True`, `is_ending=result["is_ending"]`, depth 0), then set
`root_node_id` and `current_node_id` to it and fold the content into the
story context.  `is_completed` is not written on this path. -/
def openingUpdate (storyId : Nat) (story : StoryPtrs) (result : ParsedResponse)
    (newId : Nat) : StoryNodeRec × StoryPtrs :=
  let node : StoryNodeRec :=
    { id := newId, storyId := storyId, parentId := none
      content := result.content, choiceText := none, choices := result.choices
      isRoot := true, isEnding := result.isEnding, depth := 0 }
  (node,
   { rootNodeId := some newId
     currentNodeId := some newId
     isCompleted := story.isCompleted
     storyContext := some (extractContextUpdates result.content story.storyContext) })

/-- `continue_story` success path: persist the child node
(`is_ending=result["is_ending"]`, depth `parent.depth + 1`), then advance
`current_node_id` and fold the content into the story context.
Neither `root_node_id` nor `is_completed` is written on this path. -/
def continueUpdate (storyId : Nat) (story : StoryPtrs) (parent : StoryNodeRec)
    (choiceText : Option (List Char)) (result : ParsedResponse) (newId : Nat) :
    StoryNodeRec × StoryPtrs :=
  let node : StoryNodeRec :=
    { id := newId, storyId := storyId, parentId := some parent.id
      content := result.content, choiceText := choiceText
      choices := result.choices, isRoot := false
      isEnding := result.isEnding, depth := parent.depth + 1 }
  (node,
   { rootNodeId := story.rootNodeId
     currentNodeId := some newId
     isCompleted := story.isCompleted
     storyContext := some (extractContextUpdates result.content story.storyContext) })

/-- `generate_story_ending` success path: persist the ending node
(`is_ending=True`, empty choices), mark the story completed, advance
`current_node_id`, fold the context. -/
def endingUpdate (storyId : Nat) (story : StoryPtrs) (parent : StoryNodeRec)
    (result : ParsedResponse) (newId : Nat) : StoryNodeRec × StoryPtrs :=
  let node : StoryNodeRec :=
    { id := newId, storyId := storyId, parentId := some parent.id
      content := result.content, choiceText := none, choices := []
      isRoot := false, isEnding := true, depth := parent.depth + 1 }
  (node,
   { rootNodeId := story.rootNodeId
     currentNodeId := some newId
     isCompleted := true
     storyContext := some (extractContextUpdates result.content story.storyContext) })

/-- `stream_story_generation` persistence step (after the stream completes):
`is_root` iff the job is an opening, `is_ending` iff the job is an ending or
the parsed result reports an ending; choices are dropped on endings;
`root_node_id` is set for roots, `is_completed` for endings,
`current_node_id` always. -/
def streamUpdate (storyId : Nat) (story : StoryPtrs) (jobType : GenJobType)
    (parent : Option StoryNodeRec) (choiceText : Option (List Char))
    (result : ParsedResponse) (newId : Nat) : StoryNodeRec × StoryPtrs :=
  let isRoot := jobType = GenJobType.opening
  let isEnding := jobType = GenJobType.ending || result.isEnding
  let depth := match parent with
    | some p => p.depth + 1
    | none => 0
  let node : StoryNodeRec :=
    { id := newId, storyId := storyId, parentId := parent.map (·.id)
      content := result.content, choiceText := choiceText
      choices := if isEnding then [] else result.choices
      isRoot := isRoot, isEnding := isEnding, depth := depth }
  (node,
   { rootNodeId := if isRoot then some newId else story.rootNodeId
     currentNodeId := some newId
     isCompleted := if isEnding then true else story.isCompleted
     storyContext := some (extractContextUpdates result.content story.storyContext) })

/-! ## Branch computation, `get_story_branches`
(`Backend/routers/story.py`, lines 363–419) -/

/-- One entry of a branch's node sequence
(the `StoryBranchNode` schema). -/
structure BranchNode where
  id : Nat
  content : List Char
  choiceText : Option (List Char)
  isEnding : Bool
deriving Repr, DecidableEq

/-- One root-to-leaf branch (the `StoryBranch` schema).  The source labels
the k-th appended branch `"branch_k"`; the label is the 1-based position in
the returned list and is not stored separately here. -/
structure Branch where
  nodes : List BranchNode
  isComplete : Bool
deriving Repr, DecidableEq

/-- The `StoryBranchNode` view of a node row. -/
def toBranchNode (n : StoryNodeRec) : BranchNode :=
  { id := n.id, content := n.content, choiceText := n.choiceText
    isEnding := n.isEnding }

/-- `collect_branches(node, path)`: extend the path with this node; children
are the story nodes whose `parent_id` equals this node's id; emit one branch
(`is_complete = node.is_ending`) at a node with no children or with
`is_ending`, else recurse into each child.  `fuel` bounds the recursion
depth; on acyclic parent links (guaranteed by construction: a parent row
exists before any of its children) a path never repeats a node, so
`allNodes.length + 1` suffices and matches the unbounded Python recursion. -/
def collectBranches (allNodes : List StoryNodeRec) :
    Nat → StoryNodeRec → List BranchNode → List Branch
  | 0, _, _ => []
  | fuel + 1, node, path =>
    let currentPath := path ++ [toBranchNode node]
    let children := allNodes.filter (fun n => n.parentId = some node.id)
    if children.isEmpty || node.isEnding then
      [{ nodes := currentPath, isComplete := node.isEnding }]
    else
      children.flatMap (fun child => collectBranches allNodes fuel child currentPath)

/-- The computed-branches path of `get_story_branches` (taken when no saved
branch snapshot exists): find the root (`next((n for n in story.nodes if
n.is_root), None)`); no root gives no branches, else collect from the root
with an empty path. -/
def computeBranches (allNodes : List StoryNodeRec) : List Branch :=
  match allNodes.find? (fun n => n.isRoot) with
  | none => []
  | some root => collectBranches allNodes (allNodes.length + 1) root []

/-! ## The model-fallback loop, `StoryGenerator.generate` /
`StoryGenerator._model_fallbacks`
(`Backend/core/story_generator.py`, lines 91–107 and 338–378) -/

/-- `StoryGenerator._should_switch_model(error_message)`: an error warrants
switching models if its message contains a model-not-found, rate-limit/quota,
or invalid-request marker. -/
def shouldSwitchModel (msg : List Char) : Bool :=
  let low := msg.map lowerCh
  (containsSub low "model_not_found".data || containsSub low "invalid_model".data) ||
  (containsSub msg "429".data || containsSub low "rate_limit".data ||
   containsSub low "quota".data) ||
  containsSub low "invalid_request".data

/-- `StoryGenerator._model_fallbacks()`: the configured model, the current
model and three hard-coded fallbacks, with empty entries and duplicates
removed, first occurrence kept. -/
def modelFallbacks (groqModel selfModel : String) : List String :=
  let candidates := [groqModel, selfModel, "llama-3.1-8b-instant",
                     "llama-3.3-70b-versatile", "mixtral-8x7b-32768"]
  (candidates.foldl
    (fun acc m => if m ≠ "" && !acc.contains m then acc ++ [m] else acc) [])

/-- The fallback `for candidate in self._model_fallbacks():` loop of
`generate`: skip a candidate equal to the *current* `self.model_name`
(which is reassigned to each attempted candidate); return the first
successful invocation together with the model name it used; when the
loop exhausts, raise `last_error` — the error of the most recent failed
attempt, initialised to the original error.  `invoke` maps a model name to
the outcome of `_invoke_once` under that model. -/
def runFallbacks (invoke : String → Except (List Char) ParsedResponse) :
    List String → String → List Char → Except (List Char) (ParsedResponse × String)
  | [], _, lastError => throw lastError
  | candidate :: rest, modelName, lastError =>
    if candidate = modelName then
      runFallbacks invoke rest modelName lastError
    else
      match invoke candidate with
      | .ok r => .ok (r, candidate)
      | .error e => runFallbacks invoke rest candidate e

/-- The invocation section of `StoryGenerator.generate`: one initial call
with the current model; on an error that warrants switching, the linear
fallback loop; otherwise the error is re-raised.  Returns the parsed result
and the model name that produced it. -/
def generateWithFallback (invoke : String → Except (List Char) ParsedResponse)
    (modelName : String) (fallbacks : List String) :
    Except (List Char) (ParsedResponse × String) :=
  match invoke modelName with
  | .ok r => .ok (r, modelName)
  | .error e =>
    if shouldSwitchModel e then runFallbacks invoke fallbacks modelName e
    else throw e

/-! ## Paginated listing (`list_stories`, `Backend/routers/story.py` lines
144–207; `list_jobs`, `Backend/routers/jobs.py` lines 24–55) -/

/-- A `stories` row restricted to the fields the list filters read.
The rows are taken in the query's `created_at DESC` order. -/
structure StoryRow where
  id : Nat
  genre : Option String
  isActive : Bool
deriving Repr, DecidableEq

/-- A `jobs` row restricted to the fields the list filters read. -/
structure JobRow where
  id : Nat
  status : String
  storyId : Option Nat
deriving Repr, DecidableEq

/-- A paginated list response (`items`, `total`, `page`, `size`, `pages`). -/
structure PageResponse (α : Type) where
  items : List α
  total : Nat
  page : Nat
  size : Nat
  pages : Nat
deriving Repr, DecidableEq

/-- `math.ceil(total / size)` for positive naturals. -/
def ceilDiv (total size : Nat) : Nat := (total + size - 1) / size

/-- `list_stories(page, size, genre, active_only)`: filter by `is_active`
and, when a nonempty genre is given (Python truthiness), by genre; `total`
is the filtered count; items are the page window; `pages` is
`ceil(total / size) if total > 0 else 1`. -/
def listStories (rows : List StoryRow) (page size : Nat) (genre : Option String)
    (activeOnly : Bool) : PageResponse StoryRow :=
  let q0 : List StoryRow := if activeOnly then rows.filter (·.isActive) else rows
  let q : List StoryRow := match genre with
    | some g => if g ≠ "" then q0.filter (fun r => r.genre = some g) else q0
    | none => q0
  let total := q.length
  let items := (q.drop ((page - 1) * size)).take size
  let totalPages := if total > 0 then ceilDiv total size else 1
  { items := items, total := total, page := page, size := size, pages := totalPages }

/-- `list_jobs(page, size, status, story_id)`: filter by status (nonempty
string, Python truthiness) and by story id (nonzero, Python truthiness);
`total` is the filtered count; `pages` is
`ceil(total / size) if total > 0 else 1`. -/
def listJobs (rows : List JobRow) (page size : Nat) (statusFilter : Option String)
    (storyId : Option Nat) : PageResponse JobRow :=
  let q0 : List JobRow := match statusFilter with
    | some s => if s ≠ "" then rows.filter (fun r => r.status = s) else rows
    | none => rows
  let q : List JobRow := match storyId with
    | some sid => if sid ≠ 0 then q0.filter (fun r => r.storyId = some sid) else q0
    | none => q0
  let total := q.length
  let items := (q.drop ((page - 1) * size)).take size
  let totalPages := if total > 0 then ceilDiv total size else 1
  { items := items, total := total, page := page, size := size, pages := totalPages }

/-! ## Infrastructure lemmas about substring search and tag stripping -/

/-- `containsSub` agrees with list-infix occurrence. -/
theorem containsSub_iff_occurs (p l : List Char) : containsSub l p = true ↔ p <:+: l := by
  induction l with
  | nil =>
    by_cases hp : p = [] <;> simp [containsSub, findSub, hp]
  | cons c t ih =>
    rw [List.infix_cons_iff]
    by_cases hpre : p.isPrefixOf (c :: t)
    · simp [containsSub, findSub, hpre]
      exact Or.inl ( List.isPrefixOf_iff_prefix.mp hpre)
    · have hcs : containsSub (c :: t) p = containsSub t p := by
        simp [containsSub, findSub, hpre]
      rw [hcs, ih]
      constructor
      · exact Or.inr
      · rintro (h | h)
        · exact absurd ( List.isPrefixOf_iff_prefix.mpr h) hpre
        · exact h

/-- A `containsSub`-negative search yields no index. -/
theorem findSub_eq_none (h : containsSub l p = false) : findSub l p = none := by
  unfold containsSub at h
  cases hf : findSub l p with
  | none => rfl
  | some i => rw [hf] at h; simp at h

/-- Non-occurrence formulated through `containsSub`. -/
theorem not_occurs_of_containsSub_false (h : containsSub l p = false) : ¬ p <:+: l := by
  intro hinf
  rw [← containsSub_iff_occurs] at hinf
  rw [h] at hinf
  cases hinf

/-- `stripPy l` is an infix of `l`. -/
theorem stripPy_occurs (l : List Char) : stripPy l <:+: l := by
  unfold stripPy
  have h1 : l.dropWhile isSpaceCh <:+ l := List.dropWhile_suffix _
  have h2 : (l.dropWhile isSpaceCh).reverse.dropWhile isSpaceCh <:+
      (l.dropWhile isSpaceCh).reverse := List.dropWhile_suffix _
  have h3 : ((l.dropWhile isSpaceCh).reverse.dropWhile isSpaceCh).reverse <+:
      l.dropWhile isSpaceCh := by
    have := List.reverse_prefix.mpr h2
    simpa using this
  exact h3.isInfix.trans h1.isInfix

/-- A tag-free list passes through one `re.sub` scan unchanged. -/
theorem subTagsAux_eq_self (tags : List (List Char)) :
    ∀ (fuel : Nat) (l : List Char), (∀ t ∈ tags, ¬ t <:+: l) →
      subTagsAux tags fuel l = l := by
  intro fuel
  induction fuel with
  | zero => intro l _; rfl
  | succ n ih =>
    intro l h
    match l with
    | [] => rfl
    | c :: rest =>
      have hfind : tags.find? (fun t => t.isPrefixOf (c :: rest)) = none := by
        rw [List.find?_eq_none]
        intro t ht
        simp only [Bool.not_eq_true, ← Bool.not_eq_true', List.isPrefixOf_iff_prefix]
        intro hpre
        exact h t ht hpre.isInfix
      simp only [subTagsAux, hfind]
      congr 1
      exact ih rest (fun t ht hinf => h t ht (List.infix_cons_iff.mpr (Or.inr hinf)))

/-- A delimiter-free list passes through both clean-up passes unchanged. -/
theorem stripTagTokens_eq_self (l : List Char)
    (h : ∀ t ∈ openTagTokens ++ closeTagTokens, ¬ t <:+: l) :
    stripTagTokens l = l := by
  unfold stripTagTokens
  have hopen : subTagsAux openTagTokens l.length l = l :=
    subTagsAux_eq_self _ _ l (fun t ht => h t (List.mem_append_left _ ht))
  rw [hopen]
  exact subTagsAux_eq_self _ _ l (fun t ht => h t (List.mem_append_right _ ht))

/-! ## Claims about the response parser -/

/-- C3: the response parser is a total function (it is defined by structural
recursion, so it terminates and never raises on any input); in particular, on
any input containing none of the `[STORY]`, `[CHOICES]` or `[ENDING]`
delimiter pairs (the `[ENDING]` pair taken case-insensitively, as the parser
searches it), it returns the whole trimmed input as content, an empty choice
list, and `is_ending = true`, for either job kind. -/
theorem parse_degrades_without_delimiters
    (l : List Char) (e : Bool)
    (h1 : containsSub l "[STORY]".data = false)
    (h2 : containsSub l "[/STORY]".data = false)
    (h3 : containsSub l "[CHOICES]".data = false)
    (h4 : containsSub l "[/CHOICES]".data = false)
    (h5 : containsSub (l.map lowerCh) "[ending]".data = false)
    (h6 : containsSub (l.map lowerCh) "[/ending]".data = false) :
    parseResponse l e = { content := stripPy l, choices := [], isEnding := true } := by
  have hS : findSub l "[STORY]".data = none := findSub_eq_none h1
  have hC : findSub l "[CHOICES]".data = none := findSub_eq_none h3
  have hElow : ("[ENDING]".data.map lowerCh) = "[ending]".data := by decide
  have hE : findSub (l.map lowerCh) ("[ENDING]".data.map lowerCh) = none := by
    rw [hElow]; exact findSub_eq_none h5
  have hstripinf : ∀ p : List Char, ¬ p <:+: l → ¬ p <:+: stripPy l := by
    intro p hp hinf
    exact hp (hinf.trans (stripPy_occurs l))
  have hlower : ∀ p : List Char,
      containsSub (l.map lowerCh) (p.map lowerCh) = false → ¬ p <:+: l := by
    intro p hcp hinf
    exact not_occurs_of_containsSub_false hcp (hinf.map lowerCh)
  have hstrip : stripTagTokens (stripPy l) = stripPy l := by
    apply stripTagTokens_eq_self
    intro t ht
    apply hstripinf
    fin_cases ht
    · exact not_occurs_of_containsSub_false h1
    · exact not_occurs_of_containsSub_false h3
    · exact hlower _ (by rw [show ("[ENDING]".data.map lowerCh) = "[ending]".data by decide]; exact h5)
    · exact not_occurs_of_containsSub_false h2
    · exact not_occurs_of_containsSub_false h4
    · exact hlower _ (by rw [show ("[/ENDING]".data.map lowerCh) = "[/ending]".data by decide]; exact h6)
  unfold parseResponse extractBetween extractBetweenCI
  rw [hS, hC, hE]
  cases e <;> simp [hstrip]

/-- Witness for C3 at a concrete delimiter-free input. -/
theorem parse_degrades_without_delimiters_witness :
    parseResponse "A quiet morning, nothing happened.".data false
      = { content := stripPy "A quiet morning, nothing happened.".data
          choices := [], isEnding := true } :=
  parse_degrades_without_delimiters "A quiet morning, nothing happened.".data false
    (by decide) (by decide) (by decide) (by decide) (by decide) (by decide)

/-- C4: for a non-ending job, whenever the parser extracts zero choices
(absent or empty `[CHOICES]` block), the parsed result reports
`is_ending = true` — the explicit `[ENDING]false[/ENDING]` flag cannot
override the zero-choices safety net. -/
theorem zero_choices_force_ending
    (content : List Char)
    (h : (parseResponse content false).choices = []) :
    (parseResponse content false).isEnding = true := by
  unfold parseResponse at h ⊢
  dsimp only at h ⊢
  rw [h]
  simp

/-- Witness for C4: an input with a well-formed `[STORY]` block, an *empty*
`[CHOICES]` block and an explicit `[ENDING]false[/ENDING]` still parses as an
ending. -/
theorem zero_choices_force_ending_witness :
    (parseResponse "[STORY]X[/STORY][CHOICES][/CHOICES][ENDING]false[/ENDING]".data
        false).choices = []
    ∧ (parseResponse "[STORY]X[/STORY][CHOICES][/CHOICES][ENDING]false[/ENDING]".data
        false).isEnding = true :=
  ⟨by decide, zero_choices_force_ending _ (by decide)⟩

/-- C9: on the spec's round-trip input the parser returns content `X`,
exactly the two choices `A` and `B` in order, each with a null hint, and
`is_ending = false`; and on every input, at most 4 choices are returned. -/
theorem parse_roundtrip_and_choice_bound :
    parseResponse "[STORY]X[/STORY][CHOICES]1. A\n2. B[/CHOICES][ENDING]false[/ENDING]".data false
      = { content := "X".data
          choices := [{ text := "A".data, consequenceHint := none },
                      { text := "B".data, consequenceHint := none }]
          isEnding := false }
    ∧ ∀ (content : List Char) (e : Bool),
        (parseResponse content e).choices.length ≤ 4 := by
  constructor
  · decide
  · intro content e
    unfold parseResponse
    dsimp only
    split
    · simp
    · split
      · simp only [List.length_map, List.length_take]
        omega
      · simp

/-! ## Infrastructure lemmas about the continuity tracker -/

/-- The `takeLast` window never exceeds its bound. -/
theorem takeLast_length_le (n : Nat) (l : List (List Char)) :
    (takeLast n l).length ≤ n := by
  unfold takeLast
  rw [List.length_drop]
  omega

/-- The `takeLast` window is a suffix (oldest entries are evicted first). -/
theorem takeLast_suffix (n : Nat) (l : List (List Char)) : takeLast n l <:+ l :=
  List.drop_suffix _ _

/-- `bumpCount` either leaves the key list unchanged or appends the new key. -/
theorem bumpCount_keys (m : List (List Char × Nat)) (w : List Char) :
    (bumpCount m w).map Prod.fst = m.map Prod.fst
    ∨ (bumpCount m w).map Prod.fst = m.map Prod.fst ++ [w] := by
  unfold bumpCount
  split
  · left
    rw [List.map_map]
    apply List.map_congr_left
    intro p _
    by_cases hw : p.1 = w <;> simp [hw]
  · right
    rw [List.map_append]
    rfl

/-- Keys appearing after a `bumpCount` step were present before or are the
bumped word. -/
theorem bumpCount_keys_mem {m : List (List Char × Nat)} {w a : List Char}
    (h : a ∈ (bumpCount m w).map Prod.fst) : a ∈ m.map Prod.fst ∨ a = w := by
  rcases bumpCount_keys m w with heq | heq <;> rw [heq] at h
  · exact Or.inl h
  · rcases List.mem_append.mp h with h' | h'
    · exact Or.inl h'
    · exact Or.inr (List.mem_singleton.mp h')

/-- `bumpCount` preserves distinctness of the keys. -/
theorem bumpCount_keys_nodup {m : List (List Char × Nat)} {w : List Char}
    (h : (m.map Prod.fst).Nodup) : ((bumpCount m w).map Prod.fst).Nodup := by
  unfold bumpCount
  split
  next =>
    have : ((m.map fun p => if p.1 = w then (p.1, p.2 + 1) else p).map Prod.fst)
        = m.map Prod.fst := by
      rw [List.map_map]
      apply List.map_congr_left
      intro p _
      by_cases hw : p.1 = w <;> simp [hw]
    rw [this]
    exact h
  next hany =>
    rw [List.map_append]
    rw [List.nodup_append]
    refine ⟨h, List.nodup_singleton _, ?_⟩
    intro a ha hmem
    rcases List.mem_map.mp ha with ⟨p, hp, rfl⟩
    simp only [List.map_cons, List.map_nil, List.mem_singleton] at hmem
    exact hany (List.any_eq_true.mpr ⟨p, hp, by simp [hmem]⟩)

/-- Every key counted by the `name_counts` loop was already a key or is a
word of the scan that passes the length and stop-list filters. -/
theorem countNames_keys_mem :
    ∀ (ws : List (List Char)) (m : List (List Char × Nat)) (a : List Char),
      a ∈ (countNames ws m).map Prod.fst →
      a ∈ m.map Prod.fst ∨ (a ∈ ws ∧ a.length > 2 ∧ a ∉ stopWords) := by
  intro ws
  induction ws with
  | nil => intro m a h; exact Or.inl h
  | cons w ws ih =>
    intro m a h
    unfold countNames at h
    rcases ih _ a h with h' | h'
    · by_cases hc : (w.length > 2 && !(stopWords.contains w)) = true
      · rw [if_pos hc] at h'
        rcases bumpCount_keys_mem h' with h'' | rfl
        · exact Or.inl h''
        · right
          rw [Bool.and_eq_true] at hc
          refine ⟨List.mem_cons_self _ _, by simpa using hc.1, ?_⟩
          have := hc.2
          simp only [Bool.not_eq_true'] at this
          simpa using this
      · rw [if_neg hc] at h'
        exact Or.inl h'
    · exact Or.inr ⟨List.mem_cons_of_mem _ h'.1, h'.2⟩

/-- The `name_counts` loop keeps keys distinct. -/
theorem countNames_keys_nodup :
    ∀ (ws : List (List Char)) (m : List (List Char × Nat)),
      (m.map Prod.fst).Nodup → ((countNames ws m).map Prod.fst).Nodup := by
  intro ws
  induction ws with
  | nil => intro m h; exact h
  | cons w ws ih =>
    intro m h
    unfold countNames
    split
    · exact ih _ (bumpCount_keys_nodup h)
    · exact ih _ h

/-- Every true case of the word-match condition requires a whitespace
character immediately before the scan position and an uppercase letter
at it. -/
theorem capMatchCond_space {p2 p1 : Option Char} {c : Char}
    (h : capMatchCond p2 p1 c = true) :
    isUpperAZ c = true ∧ ∃ s, p1 = some s ∧ isSpaceCh s = true := by
  unfold capMatchCond at h
  rw [Bool.and_eq_true] at h
  refine ⟨h.2, ?_⟩
  rcases p2 with _ | a <;> rcases p1 with _ | b
  · simp at h
  · exact ⟨b, rfl, h.1⟩
  · simp at h
  · refine ⟨b, rfl, ?_⟩
    have h1 := h.1
    rw [Bool.or_eq_true] at h1
    rcases h1 with h1 | h1
    · rw [Bool.and_eq_true] at h1
      exact h1.2
    · exact h1

/-- Soundness of the word scanner: every emitted word is an uppercase letter
followed by a nonempty lowercase run, and occurs in the scanned list at a
position immediately preceded either by the carried previous character
(which is then whitespace) or by a whitespace character of the list. -/
theorem capWordsAux_spec :
    ∀ (fuel : Nat) (l : List Char) (p2 p1 : Option Char) (w : List Char),
      w ∈ capWordsAux p2 p1 fuel l →
      ((∃ c0 t, w = c0 :: t ∧ isUpperAZ c0 = true ∧ t ≠ [] ∧ ∀ x ∈ t, isLowerAZ x = true)
        ∧ ∃ a b, l = a ++ w ++ b ∧
            ((a = [] ∧ ∃ s, p1 = some s ∧ isSpaceCh s = true)
             ∨ ∃ s, a.getLast? = some s ∧ isSpaceCh s = true)) := by
  intro fuel
  induction fuel with
  | zero => intro l p2 p1 w h; simp [capWordsAux] at h
  | succ n ih =>
    intro l p2 p1 w h
    match l with
    | [] => simp [capWordsAux] at h
    | c :: rest =>
      simp only [capWordsAux] at h
      set run := rest.takeWhile isLowerAZ with hrun
      have hpre : run <+: rest := hrun ▸ List.takeWhile_prefix _
      obtain ⟨s, hss⟩ := hpre
      have hdrop : rest.drop run.length = s := by
        rw [← hss]
        exact List.drop_left _ _
      by_cases hcond : (capMatchCond p2 p1 c && !run.isEmpty) = true
      · rw [if_pos hcond] at h
        rw [Bool.and_eq_true] at hcond
        obtain ⟨hupper, hsp⟩ := capMatchCond_space hcond.1
        rcases List.mem_cons.mp h with rfl | hmem
        · refine ⟨⟨c, run, rfl, hupper, ?_, ?_⟩, [], s, ?_, Or.inl ⟨rfl, hsp⟩⟩
          · have := hcond.2
            simpa [List.isEmpty_iff] using this
          · intro x hx
            exact List.mem_takeWhile_imp (hrun ▸ hx)
          · rw [← hss]
            simp
        · rw [hdrop] at hmem
          obtain ⟨hshape, a', b', hsplit, hor⟩ := ih _ _ _ _ hmem
          refine ⟨hshape, (c :: run) ++ a', b', ?_, ?_⟩
          · rw [← hss, hsplit]
            simp
          · rcases hor with ⟨ha', s', hs', hsp'⟩ | ⟨s', hlast', hsp'⟩
            · subst ha'
              refine Or.inr ⟨s', ?_, hsp'⟩
              rw [List.append_nil]
              exact hs'
            · refine Or.inr ⟨s', ?_, hsp'⟩
              rw [List.getLast?_append, hlast']
              rfl
      · rw [if_neg hcond] at h
        obtain ⟨hshape, a', b', hsplit, hor⟩ := ih _ _ _ _ h
        refine ⟨hshape, c :: a', b', ?_, ?_⟩
        · rw [hsplit]
          rfl
        · rcases hor with ⟨ha', s', hs', hsp'⟩ | ⟨s', hlast', hsp'⟩
          · subst ha'
            have hc : s' = c := by injection hs' with h'; exact h'.symm
            subst hc
            exact Or.inr ⟨s', by simp, hsp'⟩
          · refine Or.inr ⟨s', ?_, hsp'⟩
            rw [show (c :: a') = [c] ++ a' from rfl, List.getLast?_append, hlast']
            rfl

/-- Unfolding equation for the characters field of the context update. -/
theorem extractContextUpdates_characters (content : List Char)
    (existing : Option StoryContext) :
    (extractContextUpdates content existing).characters
      = takeLast 8 ((existing.getD emptyContext).characters ++
          ((((countNames (capWords content) []).filter (fun p => p.2 ≥ 1)).map Prod.fst).filter
            (fun w => !((existing.getD emptyContext).characters.contains w)))) := rfl

/-- Unfolding equation for the key-events field of the context update. -/
theorem extractContextUpdates_keyEvents (content : List Char)
    (existing : Option StoryContext) :
    (extractContextUpdates content existing).keyEvents
      = match findEvent content with
        | some ev => takeLast 5 ((existing.getD emptyContext).keyEvents ++ [ev.take 100])
        | none => takeLast 5 (existing.getD emptyContext).keyEvents := rfl

/-! ## Claims about the continuity tracker -/

/-- C7: after any context update, the characters list has at most 8 entries
and the key-events list at most 5; the characters list is a suffix of the old
list extended by the newly appended names (oldest entries evicted first), and
the appended names are pairwise distinct and not already tracked. -/
theorem context_lists_bounded (content : List Char) (existing : Option StoryContext) :
    (extractContextUpdates content existing).characters.length ≤ 8
    ∧ (extractContextUpdates content existing).keyEvents.length ≤ 5
    ∧ ∃ appended : List (List Char),
        ((extractContextUpdates content existing).characters
          <:+ ((existing.getD emptyContext).characters ++ appended))
        ∧ appended.Nodup
        ∧ ∀ a ∈ appended, a ∉ (existing.getD emptyContext).characters := by
  refine ⟨?_, ?_, ?_⟩
  · rw [extractContextUpdates_characters]
    exact takeLast_length_le _ _
  · rw [extractContextUpdates_keyEvents]
    cases findEvent content <;> exact takeLast_length_le _ _
  · refine ⟨(((countNames (capWords content) []).filter (fun p => p.2 ≥ 1)).map Prod.fst).filter
      (fun w => !((existing.getD emptyContext).characters.contains w)), ?_, ?_, ?_⟩
    · rw [extractContextUpdates_characters]
      exact takeLast_suffix _ _
    · apply List.Nodup.filter
      apply List.Nodup.sublist ((List.filter_sublist _).map Prod.fst)
      exact countNames_keys_nodup _ _ (by simp)
    · intro a ha
      have hc := (List.mem_filter.mp ha).2
      simp only [Bool.not_eq_true'] at hc
      simpa using hc

/-- C8 counterexample: in `"The night fell. Wolf appeared."` the capitalized
word `Wolf` occurs only at sentence-initial position — its single occurrence
is immediately after the terminator-and-space `". "` — yet it IS added to the
characters list, because the detection regex's first lookbehind alternative
explicitly admits positions preceded by a terminator and a whitespace. -/
theorem sentence_initial_word_is_added :
    (extractContextUpdates "The night fell. Wolf appeared.".data none).characters
      = ["Wolf".data]
    ∧ "The night fell. Wolf appeared.".data
        = "The night fell. ".data ++ "Wolf".data ++ " appeared.".data
    ∧ containsSub "The night fell. ".data "Wolf".data = false
    ∧ containsSub " appeared.".data "Wolf".data = false :=
  ⟨by decide, by decide, by decide, by decide⟩

/-- C8 (amended): every name newly added to the characters list is a token
longer than 2 characters, outside the stop-list, consisting of an uppercase
letter followed by a nonempty lowercase run, and occurring in the content
immediately after a whitespace character.  (Sentence-initial occurrences
*after* the first sentence satisfy this — the spec's claimed sentence-initial
exclusion does not hold; only a capitalized word at the very start of the
content, with no preceding character, is excluded by position.) -/
theorem characters_added_are_capitalized_after_whitespace
    (content : List Char) (existing : Option StoryContext) (a : List Char)
    (h : a ∈ (extractContextUpdates content existing).characters) :
    a ∈ (existing.getD emptyContext).characters
    ∨ (a.length > 2 ∧ a ∉ stopWords
        ∧ (∃ c0 t, a = c0 :: t ∧ isUpperAZ c0 = true ∧ t ≠ [] ∧ ∀ x ∈ t, isLowerAZ x = true)
        ∧ ∃ pre post, content = pre ++ a ++ post
            ∧ ∃ s, pre.getLast? = some s ∧ isSpaceCh s = true) := by
  rw [extractContextUpdates_characters] at h
  unfold takeLast at h
  have h1 := List.mem_of_mem_drop h
  rcases List.mem_append.mp h1 with hold | hnew
  · exact Or.inl hold
  · right
    have h2 := (List.mem_filter.mp hnew).1
    rcases List.mem_map.mp h2 with ⟨p, hp, rfl⟩
    have hp' : p ∈ countNames (capWords content) [] := (List.mem_filter.mp hp).1
    have hkey : p.1 ∈ (countNames (capWords content) []).map Prod.fst :=
      List.mem_map_of_mem _ hp'
    rcases countNames_keys_mem _ _ _ hkey with hnil | ⟨hw, hlen, hstop⟩
    · simp at hnil
    · rw [capWords] at hw
      obtain ⟨hshape, pre, post, hsplit, hor⟩ :=
        capWordsAux_spec content.length content none none p.1 hw
      refine ⟨hlen, hstop, hshape, pre, post, hsplit, ?_⟩
      rcases hor with ⟨_, s, hs, _⟩ | hsome
      · cases hs
      · exact hsome

/-- Witness for C8 (amended) at a concrete input: `Liora` is added from a
mid-sentence position. -/
theorem characters_added_witness :
    "Liora".data ∈ (extractContextUpdates
        "Kara met Liora near the gate. They entered the hall.".data none).characters
    ∧ ("Liora".data ∈ (emptyContext).characters
      ∨ ("Liora".data.length > 2 ∧ "Liora".data ∉ stopWords
          ∧ (∃ c0 t, "Liora".data = c0 :: t ∧ isUpperAZ c0 = true ∧ t ≠ []
              ∧ ∀ x ∈ t, isLowerAZ x = true)
          ∧ ∃ pre post,
              "Kara met Liora near the gate. They entered the hall.".data
                = pre ++ "Liora".data ++ post
              ∧ ∃ s, pre.getLast? = some s ∧ isSpaceCh s = true)) :=
  ⟨by decide,
   characters_added_are_capitalized_after_whitespace
     "Kara met Liora near the gate. They entered the hall.".data none
     "Liora".data (by decide)⟩

/-! ## Claims about node authoring and the generation pointer updates -/

/-- C1 counterexample: with story 5 already holding root node 1, creating
another node with a null `parent_id` through `create_story_node` does NOT
fail with a Conflict — it succeeds and persists a new NON-root node at depth
0 with no parent (the endpoint has no second-root error path; only the
`is_root` flag computation consults the existing root). -/
theorem second_root_attempt_succeeds :
    createStoryNode [5]
      [{ id := 1, storyId := 5, parentId := none, content := "root".data
         choiceText := none, choices := [], isRoot := true, isEnding := false
         depth := 0 }]
      5 none "another".data none false 2
      = Except.ok
          ({ id := 2, storyId := 5, parentId := none, content := "another".data
             choiceText := none, choices := [], isRoot := false, isEnding := false
             depth := 0 },
           [{ id := 1, storyId := 5, parentId := none, content := "root".data
              choiceText := none, choices := [], isRoot := true, isEnding := false
              depth := 0 },
            { id := 2, storyId := 5, parentId := none, content := "another".data
              choiceText := none, choices := [], isRoot := false, isEnding := false
              depth := 0 }]) := by rfl

/-- C1 (amended): when the story exists and already has a root, a null-parent
`create_story_node` request succeeds (no Conflict is raised): it persists a
new node with `is_root = false`, depth 0 and no parent — the at-most-one-root
invariant is preserved, but the attempt is not rejected. -/
theorem second_root_attempt_amended
    (stories : List Nat) (nodes : List StoryNodeRec) (storyId : Nat)
    (content : List Char) (choiceText : Option (List Char)) (isEnding : Bool)
    (newId : Nat)
    (hstory : stories.contains storyId = true)
    (hroot : nodes.any (fun n => n.storyId = storyId && n.isRoot) = true) :
    ∃ node : StoryNodeRec,
      createStoryNode stories nodes storyId none content choiceText isEnding newId
        = Except.ok (node, nodes ++ [node])
      ∧ node.isRoot = false ∧ node.depth = 0 ∧ node.parentId = none := by
  cases hf : nodes.find? (fun n => n.storyId = storyId && n.isRoot) with
  | none =>
    rw [List.find?_eq_none] at hf
    rcases List.any_eq_true.mp hroot with ⟨n, hn, hpn⟩
    exact absurd hpn (hf n hn)
  | some n0 =>
    refine ⟨{ id := newId, storyId := storyId, parentId := none, content := content
              choiceText := choiceText, choices := [], isRoot := false
              isEnding := isEnding, depth := 0 }, ?_, rfl, rfl, rfl⟩
    unfold createStoryNode
    rw [hstory, hf]
    simp

/-- Witness for C1 (amended) on a concrete one-root story. -/
theorem second_root_attempt_amended_witness :
    ∃ node : StoryNodeRec,
      createStoryNode [7]
        [{ id := 3, storyId := 7, parentId := none, content := "r".data
           choiceText := none, choices := [], isRoot := true, isEnding := false
           depth := 0 }]
        7 none "c".data none false 9
        = Except.ok (node,
            [{ id := 3, storyId := 7, parentId := none, content := "r".data
               choiceText := none, choices := [], isRoot := true, isEnding := false
               depth := 0 }] ++ [node])
      ∧ node.isRoot = false ∧ node.depth = 0 ∧ node.parentId = none :=
  second_root_attempt_amended [7] _ 7 "c".data none false 9 (by decide) (by decide)

/-- C2 counterexample: the synchronous continuation endpoint persists a node
carrying `is_ending = true` from the parsed result, yet leaves the story's
`is_completed` flag untouched (false), contradicting the claim that
`is_completed` is set whenever the newly created node is an ending. -/
theorem continuation_ending_leaves_story_incomplete :
    ((continueUpdate 1
        { rootNodeId := some 1, currentNodeId := some 1, isCompleted := false
          storyContext := none }
        { id := 1, storyId := 1, parentId := none, content := "r".data
          choiceText := none, choices := [], isRoot := true, isEnding := false
          depth := 0 }
        none
        { content := "The end".data, choices := [], isEnding := true }
        2).1.isEnding = true)
    ∧ ((continueUpdate 1
        { rootNodeId := some 1, currentNodeId := some 1, isCompleted := false
          storyContext := none }
        { id := 1, storyId := 1, parentId := none, content := "r".data
          choiceText := none, choices := [], isRoot := true, isEnding := false
          depth := 0 }
        none
        { content := "The end".data, choices := [], isEnding := true }
        2).2.isCompleted = false) :=
  ⟨rfl, rfl⟩

/-- C2 (amended): on every successful generation, `current_node_id` is
advanced to the new node; `root_node_id` is set on openings (synchronous and
streaming); but `is_completed` is set only by the explicit ending endpoint
and by the streaming path (where it follows the node's ending flag) — the
synchronous opening and continuation endpoints leave `is_completed`
unchanged even when the persisted node has `is_ending = true`. -/
theorem generation_pointer_updates
    (sid : Nat) (story : StoryPtrs) (parent : StoryNodeRec)
    (ct : Option (List Char)) (r : ParsedResponse) (nid : Nat) :
    ((openingUpdate sid story r nid).2.rootNodeId = some nid
      ∧ (openingUpdate sid story r nid).2.currentNodeId = some nid
      ∧ (openingUpdate sid story r nid).1.isEnding = r.isEnding
      ∧ (openingUpdate sid story r nid).2.isCompleted = story.isCompleted)
    ∧ ((continueUpdate sid story parent ct r nid).2.currentNodeId = some nid
      ∧ (continueUpdate sid story parent ct r nid).2.rootNodeId = story.rootNodeId
      ∧ (continueUpdate sid story parent ct r nid).1.isEnding = r.isEnding
      ∧ (continueUpdate sid story parent ct r nid).2.isCompleted = story.isCompleted)
    ∧ ((endingUpdate sid story parent r nid).2.isCompleted = true
      ∧ (endingUpdate sid story parent r nid).2.currentNodeId = some nid
      ∧ (endingUpdate sid story parent r nid).1.isEnding = true)
    ∧ ∀ (jt : GenJobType) (parentOpt : Option StoryNodeRec),
        (streamUpdate sid story jt parentOpt ct r nid).2.currentNodeId = some nid
        ∧ (streamUpdate sid story jt parentOpt ct r nid).2.rootNodeId
            = (if jt = GenJobType.opening then some nid else story.rootNodeId)
        ∧ (streamUpdate sid story jt parentOpt ct r nid).2.isCompleted
            = (if (streamUpdate sid story jt parentOpt ct r nid).1.isEnding = true
               then true else story.isCompleted) := by
  refine ⟨⟨rfl, rfl, rfl, rfl⟩, ⟨rfl, rfl, rfl, rfl⟩, ⟨rfl, rfl, rfl⟩, ?_⟩
  intro jt parentOpt
  refine ⟨rfl, ?_, ?_⟩
  · cases jt <;> simp [streamUpdate]
  · cases jt <;> cases hr : r.isEnding <;> simp [streamUpdate, hr]

/-! ## Claims about the model-fallback loop -/

/-- The candidates the fallback loop actually attempts: a candidate is
skipped iff it equals the model name current at its turn — initially the
caller's model, afterwards the last attempted candidate (the loop reassigns
`self.model_name` before each attempt). -/
def attemptedCandidates : List String → String → List String
  | [], _ => []
  | c :: cs, name =>
    if c = name then attemptedCandidates cs name
    else c :: attemptedCandidates cs c

/-- A surfaced error of the fallback loop is the initial error or comes from
one of the candidate invocations. -/
theorem runFallbacks_error_provenance
    (invoke : String → Except (List Char) ParsedResponse) :
    ∀ (cs : List String) (name : String) (e err : List Char),
      runFallbacks invoke cs name e = Except.error err →
      err = e ∨ ∃ c' ∈ cs, invoke c' = Except.error err := by
  intro cs
  induction cs with
  | nil =>
    intro name e err h
    unfold runFallbacks at h
    injection h with h'
    exact Or.inl h'.symm
  | cons cand rest ih =>
    intro name e err h
    unfold runFallbacks at h
    split at h
    · rcases ih _ _ _ h with h' | ⟨c', hc', hic⟩
      · exact Or.inl h'
      · exact Or.inr ⟨c', List.mem_cons_of_mem _ hc', hic⟩
    · cases hi : invoke cand with
      | ok r' => rw [hi] at h; cases h
      | error e' =>
        rw [hi] at h
        rcases ih _ _ _ h with h' | ⟨c', hc', hic⟩
        · subst h'
          exact Or.inr ⟨cand, List.mem_cons_self _ _, hi⟩
        · exact Or.inr ⟨c', List.mem_cons_of_mem _ hc', hic⟩

/-- A successful outcome of the fallback loop is one candidate's successful
invocation. -/
theorem runFallbacks_ok
    (invoke : String → Except (List Char) ParsedResponse) :
    ∀ (cs : List String) (name : String) (e : List Char) (r : ParsedResponse)
      (c : String),
      runFallbacks invoke cs name e = Except.ok (r, c) →
      c ∈ cs ∧ invoke c = Except.ok r := by
  intro cs
  induction cs with
  | nil =>
    intro name e r c h
    unfold runFallbacks at h
    cases h
  | cons cand rest ih =>
    intro name e r c h
    unfold runFallbacks at h
    split at h
    · rcases ih _ _ _ _ h with ⟨hm, hi⟩
      exact ⟨List.mem_cons_of_mem _ hm, hi⟩
    · cases hi : invoke cand with
      | ok r' =>
        rw [hi] at h
        cases h
        exact ⟨List.mem_cons_self _ _, hi⟩
      | error e' =>
        rw [hi] at h
        rcases ih _ _ _ _ h with ⟨hm, hio⟩
        exact ⟨List.mem_cons_of_mem _ hm, hio⟩

/-- When every candidate fails, the loop surfaces the error of the LAST
attempted candidate (the initial error only when none was attempted). -/
theorem runFallbacks_all_fail
    (invoke : String → Except (List Char) ParsedResponse)
    (f : String → List Char) :
    ∀ (cs : List String) (name : String) (e : List Char),
      (∀ c' ∈ cs, invoke c' = Except.error (f c')) →
      runFallbacks invoke cs name e
        = Except.error (((attemptedCandidates cs name).getLast?).elim e f) := by
  intro cs
  induction cs with
  | nil => intro name e _; rfl
  | cons cand rest ih =>
    intro name e hall
    unfold runFallbacks attemptedCandidates
    by_cases hc : cand = name
    · rw [if_pos hc, if_pos hc]
      exact ih _ _ (fun c' hc' => hall c' (List.mem_cons_of_mem _ hc'))
    · rw [if_neg hc, if_neg hc, hall cand (List.mem_cons_self _ _)]
      show runFallbacks invoke rest cand (f cand)
          = Except.error ((cand :: attemptedCandidates rest cand).getLast?.elim e f)
      rw [ih cand (f cand) (fun c' hc' => hall c' (List.mem_cons_of_mem _ hc'))]
      cases hA : attemptedCandidates rest cand with
      | nil => simp [hA]
      | cons x xs =>
        simp only [hA, List.getLast?_cons_cons]
        cases hy : (x :: xs).getLast? with
        | none =>
          rw [List.getLast?_eq_none_iff] at hy
          cases hy
        | some y => simp

/-- C6 counterexample: with a first invocation failing on a retryable
rate-limit error and every fallback candidate failing with its own distinct
error, the error surfaced to the caller is the LAST candidate's error, not
the error originally raised by the first invocation. -/
theorem fallback_surfaces_last_error :
    generateWithFallback
      (fun m => if m = "m0" then Except.error "429 too many requests".data
                else Except.error ("boom ".data ++ m.data))
      "m0" (modelFallbacks "" "m0")
      = Except.error ("boom ".data ++ "mixtral-8x7b-32768".data)
    ∧ ("boom ".data ++ "mixtral-8x7b-32768".data) ≠ "429 too many requests".data := by
  constructor
  · rfl
  · decide

/-- C6 (amended): the fallback loop is a linear try-next-candidate loop:
a successful outcome is the first invocation's or one candidate's success
(and an initial success short-circuits the loop); a surfaced error always
comes from an actual invocation — when every candidate fails it is the error
of the LAST attempted candidate (the original error only when no candidate
was attempted), not the originally raised error. -/
theorem fallback_amended
    (invoke : String → Except (List Char) ParsedResponse)
    (cs : List String) (name : String) (e err : List Char)
    (r : ParsedResponse) (c : String) (f : String → List Char) :
    (runFallbacks invoke cs name e = Except.error err →
      err = e ∨ ∃ c' ∈ cs, invoke c' = Except.error err)
    ∧ (runFallbacks invoke cs name e = Except.ok (r, c) →
      c ∈ cs ∧ invoke c = Except.ok r)
    ∧ (invoke name = Except.ok r →
      generateWithFallback invoke name cs = Except.ok (r, name))
    ∧ ((∀ c' ∈ cs, invoke c' = Except.error (f c')) →
      runFallbacks invoke cs name e
        = Except.error (((attemptedCandidates cs name).getLast?).elim e f)) := by
  refine ⟨runFallbacks_error_provenance invoke cs name e err,
          runFallbacks_ok invoke cs name e r c, ?_,
          runFallbacks_all_fail invoke f cs name e⟩
  intro h
  unfold generateWithFallback
  rw [h]

/-- Witness for C6 (amended): a concrete run in which every candidate fails;
the surfaced error is the last attempted candidate's. -/
theorem fallback_amended_witness :
    runFallbacks (fun m => Except.error ("E".data ++ m.data)) ["a", "b"] "a" "orig".data
      = Except.error (((attemptedCandidates ["a", "b"] "a").getLast?).elim "orig".data
          (fun m => "E".data ++ m.data)) :=
  (fallback_amended (fun m => Except.error ("E".data ++ m.data)) ["a", "b"] "a"
      "orig".data [] { content := [], choices := [], isEnding := false } "x"
      (fun m => "E".data ++ m.data)).2.2.2
    (fun _ _ => rfl)

/-! ## Claims about paginated listing -/

/-- One-pass predicate equivalent to `list_stories`' chained query filters
(Python truthiness: an empty genre string disables the genre filter). -/
def storyFilterPred (genre : Option String) (activeOnly : Bool) (r : StoryRow) : Bool :=
  (!activeOnly || r.isActive) &&
  (match genre with
   | some g => decide (g = "") || decide (r.genre = some g)
   | none => true)

/-- One-pass predicate equivalent to `list_jobs`' chained query filters
(Python truthiness: empty status or story id 0 disable their filters). -/
def jobFilterPred (statusFilter : Option String) (storyId : Option Nat) (r : JobRow) : Bool :=
  (match statusFilter with
   | some s => decide (s = "") || decide (r.status = s)
   | none => true) &&
  (match storyId with
   | some sid => decide (sid = 0) || decide (r.storyId = some sid)
   | none => true)

/-- The reported story total counts exactly the rows matching the filters. -/
theorem listStories_total_eq (srows : List StoryRow) (page size : Nat)
    (genre : Option String) (activeOnly : Bool) :
    (listStories srows page size genre activeOnly).total
      = (srows.filter (storyFilterPred genre activeOnly)).length := by
  unfold listStories storyFilterPred
  cases genre with
  | none => cases activeOnly <;> simp
  | some g =>
    by_cases hg : g = ""
    · cases activeOnly <;> simp [hg]
    · cases activeOnly <;> simp [hg, List.filter_filter, Bool.and_comm]

/-- The reported job total counts exactly the rows matching the filters. -/
theorem listJobs_total_eq (jrows : List JobRow) (page size : Nat)
    (statusFilter : Option String) (storyId : Option Nat) :
    (listJobs jrows page size statusFilter storyId).total
      = (jrows.filter (jobFilterPred statusFilter storyId)).length := by
  unfold listJobs jobFilterPred
  cases statusFilter with
  | none =>
    cases storyId with
    | none => simp
    | some sid =>
      by_cases hs : sid = 0 <;> simp [hs]
  | some s =>
    by_cases hst : s = ""
    · cases storyId with
      | none => simp [hst]
      | some sid => by_cases hs : sid = 0 <;> simp [hst, hs]
    · cases storyId with
      | none => simp [hst]
      | some sid =>
        by_cases hs : sid = 0 <;>
          simp [hst, hs, List.filter_filter, Bool.and_comm]

/-- Definitional page-count equation for story listing. -/
theorem listStories_pages_eq (srows : List StoryRow) (page size : Nat)
    (genre : Option String) (activeOnly : Bool) :
    (listStories srows page size genre activeOnly).pages
      = if 0 < (listStories srows page size genre activeOnly).total
        then ceilDiv (listStories srows page size genre activeOnly).total size
        else 1 := rfl

/-- Definitional page-count equation for job listing. -/
theorem listJobs_pages_eq (jrows : List JobRow) (page size : Nat)
    (statusFilter : Option String) (storyId : Option Nat) :
    (listJobs jrows page size statusFilter storyId).pages
      = if 0 < (listJobs jrows page size statusFilter storyId).total
        then ceilDiv (listJobs jrows page size statusFilter storyId).total size
        else 1 := rfl

/-- Ceiling division of a positive total by a positive size is positive. -/
theorem ceilDiv_pos {total size : Nat} (htotal : 0 < total) (hsize : 1 ≤ size) :
    1 ≤ ceilDiv total size := by
  unfold ceilDiv
  rw [Nat.le_div_iff_mul_le (by omega)]
  omega

/-- C10: a listing whose filters match zero records reports `total = 0` and a
page count of 1 (never 0); a non-empty result reports
`pages = ceil(total / size)` — for both the story and the job listing
(`size ≥ 1` is enforced by the endpoints' query validation). -/
theorem listing_page_counts
    (srows : List StoryRow) (jrows : List JobRow) (page size : Nat)
    (genre : Option String) (activeOnly : Bool)
    (statusFilter : Option String) (storyId : Option Nat)
    (hsize : 1 ≤ size) :
    ((listStories srows page size genre activeOnly).total
        = (srows.filter (storyFilterPred genre activeOnly)).length
      ∧ ((srows.filter (storyFilterPred genre activeOnly)).length = 0 →
          (listStories srows page size genre activeOnly).total = 0
          ∧ (listStories srows page size genre activeOnly).pages = 1)
      ∧ (0 < (listStories srows page size genre activeOnly).total →
          (listStories srows page size genre activeOnly).pages
            = ceilDiv (listStories srows page size genre activeOnly).total size)
      ∧ (listStories srows page size genre activeOnly).pages ≠ 0)
    ∧ ((listJobs jrows page size statusFilter storyId).total
        = (jrows.filter (jobFilterPred statusFilter storyId)).length
      ∧ ((jrows.filter (jobFilterPred statusFilter storyId)).length = 0 →
          (listJobs jrows page size statusFilter storyId).total = 0
          ∧ (listJobs jrows page size statusFilter storyId).pages = 1)
      ∧ (0 < (listJobs jrows page size statusFilter storyId).total →
          (listJobs jrows page size statusFilter storyId).pages
            = ceilDiv (listJobs jrows page size statusFilter storyId).total size)
      ∧ (listJobs jrows page size statusFilter storyId).pages ≠ 0) := by
  have hs0 := listStories_total_eq srows page size genre activeOnly
  have hj0 := listJobs_total_eq jrows page size statusFilter storyId
  constructor
  · refine ⟨hs0, ?_, ?_, ?_⟩
    · intro hzero
      have ht : (listStories srows page size genre activeOnly).total = 0 := by
        rw [hs0, hzero]
      refine ⟨ht, ?_⟩
      rw [listStories_pages_eq, ht]
      simp
    · intro hpos
      rw [listStories_pages_eq, if_pos hpos]
    · rw [listStories_pages_eq]
      by_cases hpos : 0 < (listStories srows page size genre activeOnly).total
      · rw [if_pos hpos]
        have := ceilDiv_pos hpos hsize
        omega
      · rw [if_neg hpos]
        omega
  · refine ⟨hj0, ?_, ?_, ?_⟩
    · intro hzero
      have ht : (listJobs jrows page size statusFilter storyId).total = 0 := by
        rw [hj0, hzero]
      refine ⟨ht, ?_⟩
      rw [listJobs_pages_eq, ht]
      simp
    · intro hpos
      rw [listJobs_pages_eq, if_pos hpos]
    · rw [listJobs_pages_eq]
      by_cases hpos : 0 < (listJobs jrows page size statusFilter storyId).total
      · rw [if_pos hpos]
        have := ceilDiv_pos hpos hsize
        omega
      · rw [if_neg hpos]
        omega

/-- Witness for C10 on concrete rows: one empty listing and one two-row
listing with page size 1. -/
theorem listing_page_counts_witness :
    (listStories [] 1 1 none true).total = 0
    ∧ (listStories [] 1 1 none true).pages = 1
    ∧ (listJobs [{ id := 1, status := "pending", storyId := none },
                 { id := 2, status := "pending", storyId := none }] 1 1 none none).pages
        = ceilDiv 2 1 := by
  have h := listing_page_counts []
    [{ id := 1, status := "pending", storyId := none },
     { id := 2, status := "pending", storyId := none }] 1 1 none true none none
    (by decide)
  refine ⟨?_, ?_, ?_⟩
  · exact (h.1.2.1 (by decide)).1
  · exact (h.1.2.1 (by decide)).2
  · have := h.2.2.2.1 (by decide)
    simpa using this

/-! ## Claims about branch computation -/

/-- Parent-child linkage between two branch entries: the second entry is the
view of a story node whose `parent_id` is the first entry's id. -/
def parentLinked (ns : List StoryNodeRec) (x y : BranchNode) : Prop :=
  ∃ n, n ∈ ns ∧ n.parentId = some x.id ∧ toBranchNode n = y

/-- Soundness invariant of `collect_branches`: every emitted branch extends
the carried path by the current node, is parent-child chained from that node
on, and terminates at a childless-or-ending node whose ending flag is the
branch's completeness flag. -/
theorem collectBranches_spec (ns : List StoryNodeRec) :
    ∀ (fuel : Nat) (node : StoryNodeRec) (path : List BranchNode) (b : Branch),
      b ∈ collectBranches ns fuel node path → node ∈ ns →
      ∃ tail,
        b.nodes = path ++ toBranchNode node :: tail
        ∧ List.Chain' (parentLinked ns) (toBranchNode node :: tail)
        ∧ ∃ t, t ∈ ns
            ∧ (toBranchNode node :: tail).getLast? = some (toBranchNode t)
            ∧ (ns.filter (fun n => n.parentId = some t.id) = [] ∨ t.isEnding = true)
            ∧ b.isComplete = t.isEnding := by
  intro fuel
  induction fuel with
  | zero => intro node path b hb _; simp [collectBranches] at hb
  | succ m ih =>
    intro node path b hb hmem
    simp only [collectBranches] at hb
    by_cases hcond :
        ((ns.filter (fun n => n.parentId = some node.id)).isEmpty || node.isEnding) = true
    · rw [if_pos hcond] at hb
      rw [List.mem_singleton] at hb
      subst hb
      refine ⟨[], rfl, List.chain'_singleton _, node, hmem, by simp, ?_, rfl⟩
      rw [Bool.or_eq_true] at hcond
      rcases hcond with hempty | hend
      · exact Or.inl (List.isEmpty_iff.mp hempty)
      · exact Or.inr hend
    · rw [if_neg hcond] at hb
      rcases List.mem_flatMap.mp hb with ⟨child, hchild, hb'⟩
      have hchild' := List.mem_filter.mp hchild
      have hcmem : child ∈ ns := hchild'.1
      have hcpar : child.parentId = some node.id := by simpa using hchild'.2
      obtain ⟨tail', hsplit, hchain, t, htmem, hlast, hterm, hcomp⟩ :=
        ih child (path ++ [toBranchNode node]) b hb' hcmem
      refine ⟨toBranchNode child :: tail', ?_, ?_, t, htmem, ?_, hterm, hcomp⟩
      · rw [hsplit]
        simp
      · rw [List.chain'_cons]
        exact ⟨⟨child, hcmem, hcpar, rfl⟩, hchain⟩
      · rw [List.getLast?_cons_cons]
        exact hlast

/-- C5: for a story with a root node, every branch computed by
`get_story_branches` starts at the root, its consecutive entries are
parent-child linked, its terminal entry is the view of a node with no
children or with `is_ending = true`, and its `is_complete` flag equals that
terminal node's ending flag. -/
theorem computeBranches_sound
    (ns : List StoryNodeRec) (r : StoryNodeRec)
    (hroot : ns.find? (fun n => n.isRoot) = some r)
    (b : Branch) (hb : b ∈ computeBranches ns) :
    b.nodes.head? = some (toBranchNode r)
    ∧ List.Chain' (parentLinked ns) b.nodes
    ∧ ∃ t, t ∈ ns
        ∧ b.nodes.getLast? = some (toBranchNode t)
        ∧ (ns.filter (fun n => n.parentId = some t.id) = [] ∨ t.isEnding = true)
        ∧ b.isComplete = t.isEnding := by
  have hrmem : r ∈ ns := List.mem_of_find?_eq_some hroot
  unfold computeBranches at hb
  rw [hroot] at hb
  obtain ⟨tail, hsplit, hchain, t, htmem, hlast, hterm, hcomp⟩ :=
    collectBranches_spec ns (ns.length + 1) r [] b hb hrmem
  rw [hsplit]
  simp only [List.nil_append]
  exact ⟨rfl, hchain, t, htmem, hlast, hterm, hcomp⟩

/-- Witness for C5 on a concrete three-node tree (a root with an ending
child and a non-ending leaf child), instantiated at its first computed
branch. -/
theorem computeBranches_sound_witness :
    ({ nodes := [{ id := 1, content := "a".data, choiceText := none, isEnding := false },
                 { id := 2, content := "b".data, choiceText := some "x".data,
                   isEnding := true }],
       isComplete := true } : Branch).nodes.head?
        = some (toBranchNode
            { id := 1, storyId := 4, parentId := none, content := "a".data
              choiceText := none, choices := [], isRoot := true, isEnding := false
              depth := 0 })
    ∧ List.Chain'
        (parentLinked
          [{ id := 1, storyId := 4, parentId := none, content := "a".data
             choiceText := none, choices := [], isRoot := true, isEnding := false
             depth := 0 },
           { id := 2, storyId := 4, parentId := some 1, content := "b".data
             choiceText := some "x".data, choices := [], isRoot := false
             isEnding := true, depth := 1 },
           { id := 3, storyId := 4, parentId := some 1, content := "c".data
             choiceText := some "y".data, choices := [], isRoot := false
             isEnding := false, depth := 1 }])
        ({ nodes := [{ id := 1, content := "a".data, choiceText := none, isEnding := false },
                     { id := 2, content := "b".data, choiceText := some "x".data,
                       isEnding := true }],
           isComplete := true } : Branch).nodes
    ∧ ∃ t, t ∈
          ([{ id := 1, storyId := 4, parentId := none, content := "a".data
              choiceText := none, choices := [], isRoot := true, isEnding := false
              depth := 0 },
            { id := 2, storyId := 4, parentId := some 1, content := "b".data
              choiceText := some "x".data, choices := [], isRoot := false
              isEnding := true, depth := 1 },
            { id := 3, storyId := 4, parentId := some 1, content := "c".data
              choiceText := some "y".data, choices := [], isRoot := false
              isEnding := false, depth := 1 }] : List StoryNodeRec)
        ∧ ({ nodes := [{ id := 1, content := "a".data, choiceText := none, isEnding := false },
                       { id := 2, content := "b".data, choiceText := some "x".data,
                         isEnding := true }],
             isComplete := true } : Branch).nodes.getLast? = some (toBranchNode t)
        ∧ (([{ id := 1, storyId := 4, parentId := none, content := "a".data
               choiceText := none, choices := [], isRoot := true, isEnding := false
               depth := 0 },
             { id := 2, storyId := 4, parentId := some 1, content := "b".data
               choiceText := some "x".data, choices := [], isRoot := false
               isEnding := true, depth := 1 },
             { id := 3, storyId := 4, parentId := some 1, content := "c".data
               choiceText := some "y".data, choices := [], isRoot := false
               isEnding := false, depth := 1 }] : List StoryNodeRec).filter
                (fun n => n.parentId = some t.id) = [] ∨ t.isEnding = true)
        ∧ ({ nodes := [{ id := 1, content := "a".data, choiceText := none, isEnding := false },
                       { id := 2, content := "b".data, choiceText := some "x".data,
                         isEnding := true }],
             isComplete := true } : Branch).isComplete = t.isEnding :=
  computeBranches_sound
    [{ id := 1, storyId := 4, parentId := none, content := "a".data
       choiceText := none, choices := [], isRoot := true, isEnding := false
       depth := 0 },
     { id := 2, storyId := 4, parentId := some 1, content := "b".data
       choiceText := some "x".data, choices := [], isRoot := false
       isEnding := true, depth := 1 },
     { id := 3, storyId := 4, parentId := some 1, content := "c".data
       choiceText := some "y".data, choices := [], isRoot := false
       isEnding := false, depth := 1 }]
    { id := 1, storyId := 4, parentId := none, content := "a".data
      choiceText := none, choices := [], isRoot := true, isEnding := false
      depth := 0 }
    (by decide)
    { nodes := [{ id := 1, content := "a".data, choiceText := none, isEnding := false },
                { id := 2, content := "b".data, choiceText := some "x".data,
                  isEnding := true }],
      isComplete := true }
    (by decide)
